import Mathlib

/-!
# Verification of the crush stream-cache subsystem

Shallow embedding of `internal/cache` (stream cache engine, cache manager,
configuration, filters and queries) of the crush repository, together with
theorems settling the frozen claims about it.

Modelling conventions:

* Go's wall clock (`time.Now()`) is passed in explicitly as a `Nat` holding
  the Unix-nanosecond reading; `time.Duration` fields are `Nat` nanoseconds.
* The entity type `T` is opaque to the cache except for reflective access to
  its string `ID` field and to named fields used by filters
  (`reflect.ValueOf(...).FieldByName`).  An entity is modelled as a named
  field table; `GoValue` covers the dynamic values the cache compares
  (`reflect.DeepEqual` on different dynamic types is `false`, which
  structural equality of `GoValue` reproduces).
* A Go `map[string]*cacheItem` is modelled as an association list with
  insert-replace semantics (`alInsert`/`alErase`/`alFind`).
* A channel-returning operation is modelled by the `ChannelOutput` it
  produces under a consumer that reads everything: the channel's buffer
  size, the values sent, and whether the producer closed it.
* `close` of an already-closed Go channel panics; panics are modelled with
  `Except GoPanic`.
-/

set_option autoImplicit false

namespace Cache

/-- Dynamic (interface-typed) values the cache compares during filter
evaluation: the repository only ever filters on string and integer fields. -/
inductive GoValue where
  | str : String → GoValue
  | int : Int → GoValue
deriving DecidableEq, Repr

/-- An entity value as the cache sees it through reflection: a table of
named fields.  A Go struct field name occurs at most once; lookups take the
first binding. -/
structure Entity where
  fields : List (String × GoValue)
deriving DecidableEq, Repr

/-- The zero value of the entity type (`var zero T` in `Get`). -/
def zeroEntity : Entity := ⟨[]⟩

/-- Association-list lookup, modelling Go map indexing `m[k]`. -/
def alFind {α : Type} : List (String × α) → String → Option α
  | [], _ => none
  | (k', v) :: rest, k => if k = k' then some v else alFind rest k

/-- Association-list key removal, modelling Go `delete(m, k)`. -/
def alErase {α : Type} : List (String × α) → String → List (String × α)
  | [], _ => []
  | (k', v) :: rest, k => if k = k' then alErase rest k else (k', v) :: alErase rest k

/-- Association-list insert-replace, modelling Go map assignment `m[k] = v`. -/
def alInsert {α : Type} (m : List (String × α)) (k : String) (v : α) : List (String × α) :=
  (k, v) :: alErase m k

/-- `pubsub.EventType`: the three change-event kinds the services publish. -/
inductive EventType where
  | Created
  | Updated
  | Deleted
deriving DecidableEq, Repr

/-- `pubsub.Event[T]`: a typed change event (field `Type` is spelled `type`
because `Type` is reserved in Lean). -/
structure Event where
  type : EventType
  Payload : Entity
deriving DecidableEq, Repr

/-- `cache.CacheError` (the only error value is `ErrCacheMiss`). -/
structure CacheError where
  Message : String
deriving DecidableEq, Repr

/-- `cache.ErrCacheMiss`. -/
def ErrCacheMiss : CacheError := ⟨"cache miss"⟩

/-- `cache.CacheResult[T]`: the envelope emitted on result channels. -/
structure CacheResult (α : Type) where
  Data : α
  Error : Option CacheError
  Cached : Bool
  Timestamp : Nat
  Version : Int
deriving DecidableEq, Repr

/-- `cache.Filter` operator, a string in the source (`FilterOperator`). -/
abbrev FilterOperator := String

def FilterEquals : FilterOperator := "eq"
def FilterNotEquals : FilterOperator := "ne"
def FilterIn : FilterOperator := "in"
def FilterNotIn : FilterOperator := "nin"
def FilterGreater : FilterOperator := "gt"
def FilterLess : FilterOperator := "lt"
def FilterContains : FilterOperator := "contains"

/-- `cache.Filter`: one filter condition. -/
structure Filter where
  Field : String
  Operator : FilterOperator
  Value : GoValue
deriving DecidableEq, Repr

/-- `cache.SortField`. -/
structure SortField where
  Field : String
  Desc : Bool
deriving DecidableEq, Repr

/-- `cache.Query` (the source field `Sort` is spelled `sort` because `Sort`
is reserved in Lean). -/
structure Query where
  Filters : List Filter
  sort : List SortField
  Limit : Int
  Offset : Int
deriving DecidableEq, Repr

/-- `cache.CacheStats`. -/
structure CacheStats where
  HitCount : Int
  MissCount : Int
  ItemCount : Int
  MemoryUsage : Int
  LastCleanup : Nat
deriving DecidableEq, Repr

/-- `cache.CacheConfig`; durations in nanoseconds. -/
structure CacheConfig where
  TTL : Nat
  MaxItems : Int
  CleanupInterval : Nat
  BufferSize : Nat
deriving DecidableEq, Repr

/-- One minute in nanoseconds. -/
def minuteNs : Nat := 60 * 1000000000

/-- `cache.DefaultCacheConfig`. -/
def DefaultCacheConfig : CacheConfig :=
  { TTL := 5 * minuteNs
    MaxItems := 1000
    CleanupInterval := 1 * minuteNs
    BufferSize := 64 }

/-- `cache.cacheItem[T]`: one stored record.  The source reads the clock
twice on insert (`timestamp: time.Now()`, `version: time.Now().UnixNano()`);
both reads are modelled by the single clock value passed to `handleEvent`. -/
structure CacheItem where
  data : Entity
  timestamp : Nat
  version : Int
  hits : Int
deriving DecidableEq, Repr

/-- The index-and-statistics state of one `streamCache[T]` instance.
`cleanupTickerInterval` records the duration passed to
`time.NewTicker(config.CleanupInterval)` in `NewStreamCache`. -/
structure StreamCacheState where
  config : CacheConfig
  items : List (String × CacheItem)
  stats : CacheStats
  cleanupTickerInterval : Nat
deriving DecidableEq, Repr

/-- `cache.NewStreamCache`: replaces the whole config with the defaults
when `config.TTL == 0`, starts with an empty index and zero statistics. -/
def NewStreamCache (config : CacheConfig) : StreamCacheState :=
  let config := if config.TTL = 0 then DefaultCacheConfig else config
  { config := config
    items := []
    stats := { HitCount := 0, MissCount := 0, ItemCount := 0, MemoryUsage := 0, LastCleanup := 0 }
    cleanupTickerInterval := config.CleanupInterval }

/-- `extractID`: reflective read of the payload's `ID` field;
returns `""` when the field is absent or not a string. -/
def extractID (payload : Entity) : String :=
  match alFind payload.fields "ID" with
  | some (GoValue.str s) => s
  | _ => ""

/-- `isExpired`: `time.Since(item.timestamp) > config.TTL`.
With `Nat` truncating subtraction a clock earlier than the insertion time
gives `0 > TTL = false`, matching the Go comparison for non-negative TTL. -/
def isExpired (c : StreamCacheState) (item : CacheItem) (now : Nat) : Bool :=
  decide (now - item.timestamp > c.config.TTL)

/-- `matchesFilter`: `switch filter.Operator` with cases for
`FilterEquals` and `FilterNotEquals` only; every other operator falls into
`default: return true`. -/
def matchesFilter (value : GoValue) (filter : Filter) : Bool :=
  if filter.Operator = FilterEquals then decide (value = filter.Value)
  else if filter.Operator = FilterNotEquals then !(decide (value = filter.Value))
  else true

/-- `matchesFilters`: AND over the filters; a filter whose
field is not present on the entity is skipped (`continue`). -/
def matchesFilters (data : Entity) (filters : List Filter) : Bool :=
  if filters.isEmpty then true
  else filters.all fun f =>
    match alFind data.fields f.Field with
    | none => true
    | some v => matchesFilter v f

/-- The producer output of one channel-returning call: buffer size of the
channel handed to the caller, values sent, and whether it was closed. -/
structure ChannelOutput (α : Type) where
  bufferSize : Nat
  emissions : List α
  closed : Bool
deriving DecidableEq, Repr

/-- The single value sent on a cache miss:
`CacheResult[T]{Data: zero, Cached: false, Error: ErrCacheMiss}`. -/
def cacheMissResult : CacheResult Entity :=
  { Data := zeroEntity, Error := some ErrCacheMiss, Cached := false, Timestamp := 0, Version := 0 }

/-- The single value sent on a cache hit for a stored item. -/
def hitResult (payload : Entity) (t : Nat) : CacheResult Entity :=
  { Data := payload, Error := none, Cached := true, Timestamp := t, Version := Int.ofNat t }

/-- `streamCache.Get`: buffered channel of size `config.BufferSize`; emits
exactly one value (hit with `hits`/`HitCount` bumped, or miss with
`MissCount` bumped) and closes. -/
def streamCacheGet (c : StreamCacheState) (now : Nat) (id : String) :
    ChannelOutput (CacheResult Entity) × StreamCacheState :=
  match alFind c.items id with
  | some item =>
    if isExpired c item now then
      (⟨c.config.BufferSize, [cacheMissResult], true⟩,
       { c with stats := { c.stats with MissCount := c.stats.MissCount + 1 } })
    else
      (⟨c.config.BufferSize,
        [{ Data := item.data, Error := none, Cached := true,
           Timestamp := item.timestamp, Version := item.version }], true⟩,
       { c with items := alInsert c.items id { item with hits := item.hits + 1 }
                stats := { c.stats with HitCount := c.stats.HitCount + 1 } })
  | none =>
    (⟨c.config.BufferSize, [cacheMissResult], true⟩,
     { c with stats := { c.stats with MissCount := c.stats.MissCount + 1 } })

/-- The snapshot `List` computes: data of the unexpired stored items that
match all filters, in index iteration order. -/
def filteredResults (c : StreamCacheState) (now : Nat) (filters : List Filter) : List Entity :=
  (c.items.filter fun kv =>
    !(isExpired c kv.2 now) && matchesFilters kv.2.data filters).map
    fun kv => kv.2.data

/-- `streamCache.List`: buffered channel of size `config.BufferSize`; the
producer goroutine sends one snapshot (`Cached: true, Timestamp: time.Now()`)
and then runs its deferred `close`. -/
def streamCacheList (c : StreamCacheState) (now : Nat) (filters : List Filter) :
    ChannelOutput (CacheResult (List Entity)) × StreamCacheState :=
  (⟨c.config.BufferSize,
    [{ Data := filteredResults c now filters, Error := none, Cached := true,
       Timestamp := now, Version := 0 }], true⟩, c)

/-- `streamCache.Query`: makes its own channel of size `config.BufferSize`
and forwards every result of `List(ctx, query.Filters...)` to it
("For now, treat query as simple filter list"). -/
def streamCacheQuery (c : StreamCacheState) (now : Nat) (q : Query) :
    ChannelOutput (CacheResult (List Entity)) × StreamCacheState :=
  let r := streamCacheList c now q.Filters
  (⟨c.config.BufferSize, r.1.emissions, true⟩, r.2)

/-- `streamCache.Invalidate`: for each listed id, `delete(c.items, id)` and
`c.stats.ItemCount--`, whether or not the id was present. -/
def streamCacheInvalidate (c : StreamCacheState) (ids : List String) : StreamCacheState :=
  ids.foldl
    (fun c id =>
      { c with items := alErase c.items id
               stats := { c.stats with ItemCount := c.stats.ItemCount - 1 } })
    c

/-- `streamCache.Clear`: fresh empty index, `ItemCount` reset to zero. -/
def streamCacheClear (c : StreamCacheState) : StreamCacheState :=
  { c with items := [], stats := { c.stats with ItemCount := 0 } }

/-- `handleEvent`: drops events whose payload has an empty id;
Created/Updated (re)inserts a record stamped with the current clock reading
(`version: time.Now().UnixNano()`), preserving `hits` and bumping
`ItemCount` only on first insert; Deleted removes the record if present. -/
def handleEvent (c : StreamCacheState) (now : Nat) (event : Event) : StreamCacheState :=
  let id := extractID event.Payload
  if id = "" then c
  else
    match event.type with
    | EventType.Created | EventType.Updated =>
      let item : CacheItem :=
        { data := event.Payload, timestamp := now, version := Int.ofNat now, hits := 0 }
      match alFind c.items id with
      | some existing =>
        { c with items := alInsert c.items id { item with hits := existing.hits } }
      | none =>
        { c with items := alInsert c.items id item
                 stats := { c.stats with ItemCount := c.stats.ItemCount + 1 } }
    | EventType.Deleted =>
      match alFind c.items id with
      | some _ =>
        { c with items := alErase c.items id
                 stats := { c.stats with ItemCount := c.stats.ItemCount - 1 } }
      | none => c

/-- The event-ingest loop (`eventRoutine`) applied to a finite trace: each
event is handled at its clock reading, in arrival order. -/
def ingestAll (c : StreamCacheState) (events : List (Nat × Event)) : StreamCacheState :=
  events.foldl (fun c te => handleEvent c te.1 te.2) c

/-- A Go runtime panic the cache code can raise. -/
inductive GoPanic where
  | closeOfClosedChannel
deriving DecidableEq, Repr

/-- The closed/stopped flags of one `streamCache` instance's lifecycle
channels (`done`, `eventDone`) and cleanup ticker. -/
structure CloseState where
  doneClosed : Bool
  eventDoneClosed : Bool
  tickerStopped : Bool
deriving DecidableEq, Repr

/-- Lifecycle flags of a freshly constructed cache: channels open, ticker
running. -/
def initialCloseState : CloseState := ⟨false, false, false⟩

/-- Go `close(ch)`: panics when the channel is already closed. -/
def closeChannel (alreadyClosed : Bool) : Except GoPanic Unit :=
  if alreadyClosed then Except.error GoPanic.closeOfClosedChannel else Except.ok ()

/-- `streamCache.Close`: `close(c.done); close(c.eventDone);
if c.cleanup != nil { c.cleanup.Stop() }; return nil` (the ticker is always
non-nil after `NewStreamCache`).  Succeeds with a `nil` error, or panics. -/
def streamCacheClose (s : CloseState) : Except GoPanic (CloseState × Option CacheError) :=
  match closeChannel s.doneClosed with
  | Except.error p => Except.error p
  | Except.ok _ =>
    match closeChannel s.eventDoneClosed with
    | Except.error p => Except.error p
    | Except.ok _ =>
      Except.ok ({ doneClosed := true, eventDoneClosed := true, tickerStopped := true }, none)

/-- The state of one `cache.Manager`.  The sub-managers it constructs on
each `Start` are identified by allocation generation numbers (`none` before
the first `Start`); `nextGen` is the fresh-allocation supply. -/
structure ManagerState where
  config : CacheConfig
  started : Bool
  sessionCacheGen : Option Nat
  messageCacheGen : Option Nat
  nextGen : Nat
  ctxActive : Bool
deriving DecidableEq, Repr

/-- `cache.NewManager`: replaces the whole config with the defaults when
`config.TTL == 0`; not started, no sub-managers constructed yet.  (The
session/message/history services it stores are external collaborators and
are not part of the model.) -/
def NewManager (config : CacheConfig) : ManagerState :=
  { config := if config.TTL = 0 then DefaultCacheConfig else config
    started := false
    sessionCacheGen := none
    messageCacheGen := none
    nextGen := 0
    ctxActive := false }

/-- `Manager.Start`: no-op returning `nil` while started; otherwise derives
a cancellable context and constructs fresh session and message cache
managers (both of whose `Start` methods always return `nil`), then marks
the manager started and returns `nil`. -/
def ManagerStart (m : ManagerState) : Option CacheError × ManagerState :=
  if m.started then (none, m)
  else
    (none,
     { m with ctxActive := true
              sessionCacheGen := some m.nextGen
              messageCacheGen := some (m.nextGen + 1)
              nextGen := m.nextGen + 2
              started := true })

/-- `Manager.Stop`: no-op returning `nil` when not started; otherwise
cancels the context, stops the sub-managers (each closes its freshly
constructed cache once, returning `nil`), clears `started` and returns
`nil`. -/
def ManagerStop (m : ManagerState) : Option CacheError × ManagerState :=
  if m.started then (none, { m with ctxActive := false, started := false })
  else (none, m)

/-!
## Spec-side definitions

These follow the specification's words, for comparison with the
source-derived definitions above (refinement-style claims).
-/

/-- An event carries an id when its payload's `ID` field extracts to that
id; per the spec's ingestion protocol an event whose extracted id is empty
is dropped and carries no id. -/
def carriesId (e : Event) (id : String) : Prop :=
  extractID e.Payload = id ∧ id ≠ ""

instance (e : Event) (id : String) : Decidable (carriesId e id) := by
  unfold carriesId; infer_instance

/-- The last event of the trace that carries the given id, if any. -/
def lastCarrying (id : String) (events : List (Nat × Event)) : Option (Nat × Event) :=
  events.foldl (fun acc te => if carriesId te.2 id then some te else acc) none

/-- Spec-side total order used for sorting snapshots: integers and strings
by their own orders, integers before strings. -/
def goValueLe : GoValue → GoValue → Bool
  | GoValue.int a, GoValue.int b => decide (a ≤ b)
  | GoValue.str a, GoValue.str b => decide (a ≤ b)
  | GoValue.int _, GoValue.str _ => true
  | GoValue.str _, GoValue.int _ => false

/-- Insert into a sorted list (stable insertion sort step). -/
def insertLe {α : Type} (le : α → α → Bool) (x : α) : List α → List α
  | [] => [x]
  | y :: ys => if le x y then x :: y :: ys else y :: insertLe le x ys

/-- Stable insertion sort. -/
def sortByLe {α : Type} (le : α → α → Bool) : List α → List α
  | [] => []
  | x :: xs => insertLe le x (sortByLe le xs)

/-- Spec-side comparison of two entities on one sort key (descending keys
flip the comparison; entities missing the key sort first). -/
def entityKeyLe (s : SortField) (a b : Entity) : Bool :=
  match alFind a.fields s.Field, alFind b.fields s.Field with
  | some va, some vb => if s.Desc then goValueLe vb va else goValueLe va vb
  | none, _ => true
  | some _, none => false

/-- Modelled from the spec: multi-key sort, sorting stably by each key from
the least significant to the most significant. -/
def sortBySpec (keys : List SortField) (xs : List Entity) : List Entity :=
  keys.foldr (fun k acc => sortByLe (entityKeyLe k) acc) xs

/-- Modelled from the spec: `query` applies `sort`, then `offset`, then
`limit` after filter evaluation; a zero limit means unbounded. -/
def applySortOffsetLimit (q : Query) (xs : List Entity) : List Entity :=
  let sorted := sortBySpec q.sort xs
  let afterOffset := sorted.drop q.Offset.toNat
  if q.Limit = 0 then afterOffset else afterOffset.take q.Limit.toNat

/-!
## Concrete fixtures used by witnesses and counterexamples
-/

/-- A test entity with id `"a"`. -/
def entA : Entity := ⟨[("ID", GoValue.str "a")]⟩

/-- A test entity with id `"b"`. -/
def entB : Entity := ⟨[("ID", GoValue.str "b")]⟩

/-- A config with non-zero TTL (so it is taken as supplied). -/
def cfgA : CacheConfig := { TTL := 100, MaxItems := 1000, CleanupInterval := 10, BufferSize := 4 }

/-- A config with non-zero TTL and `MaxItems = 1`. -/
def cfgSmall : CacheConfig := { TTL := 100, MaxItems := 1, CleanupInterval := 10, BufferSize := 4 }

/-- A config with zero TTL (triggering wholesale defaulting). -/
def cfgZero : CacheConfig := { TTL := 0, MaxItems := 7, CleanupInterval := 8, BufferSize := 9 }

/-!
## Lemmas about the association-list map operations
-/

theorem alFind_erase_self {α : Type} (m : List (String × α)) (k : String) :
    alFind (alErase m k) k = none := by
  induction m with
  | nil => rfl
  | cons kv rest ih =>
    by_cases h : k = kv.1
    · simpa [alErase, h] using ih
    · simp [alErase, alFind, h, ih]

theorem alFind_erase_ne {α : Type} (m : List (String × α)) {k k' : String} (h : k ≠ k') :
    alFind (alErase m k') k = alFind m k := by
  induction m with
  | nil => rfl
  | cons kv rest ih =>
    by_cases h1 : k' = kv.1
    · have h2 : k ≠ kv.1 := h1 ▸ h
      rw [h1] at ih
      simp [alErase, alFind, h1, h2, ih]
    · by_cases h2 : k = kv.1
      · simp [alErase, alFind, h1, h2]
      · simp [alErase, alFind, h1, h2, ih]

theorem alFind_insert_self {α : Type} (m : List (String × α)) (k : String) (v : α) :
    alFind (alInsert m k v) k = some v := by
  simp [alInsert, alFind]

theorem alFind_insert_ne {α : Type} (m : List (String × α)) {k k' : String} (v : α)
    (h : k ≠ k') : alFind (alInsert m k' v) k = alFind m k := by
  simp [alInsert, alFind, h, alFind_erase_ne m h]

theorem alErase_of_find_none {α : Type} (m : List (String × α)) (k : String)
    (h : alFind m k = none) : alErase m k = m := by
  induction m with
  | nil => rfl
  | cons kv rest ih =>
    by_cases h1 : k = kv.1
    · simp [alFind, h1] at h
    · simp [alFind, h1] at h
      simp [alErase, h1, ih h]

theorem alFind_none_of_erase {α : Type} (m : List (String × α)) (k k' : String)
    (h : alFind m k = none) : alFind (alErase m k') k = none := by
  by_cases h1 : k = k'
  · subst h1; exact alFind_erase_self m k
  · rw [alFind_erase_ne m h1]; exact h

/-!
## Lemmas about `lastCarrying` and `handleEvent`
-/

theorem lastCarrying_foldl_acc (id : String) (events : List (Nat × Event)) :
    ∀ acc : Option (Nat × Event),
      events.foldl (fun acc te => if carriesId te.2 id then some te else acc) acc =
        (events.foldl (fun acc te => if carriesId te.2 id then some te else acc) none).elim
          acc some := by
  induction events with
  | nil => intro acc; rfl
  | cons te rest ih =>
    intro acc
    simp only [List.foldl_cons]
    rw [ih (if carriesId te.2 id then some te else acc),
        ih (if carriesId te.2 id then some te else none)]
    cases h : rest.foldl (fun acc te => if carriesId te.2 id then some te else acc) none with
    | some x => simp
    | none =>
      by_cases hc : carriesId te.2 id <;> simp [hc]

theorem lastCarrying_cons (id : String) (t : Nat) (e : Event) (rest : List (Nat × Event)) :
    lastCarrying id ((t, e) :: rest) =
      (lastCarrying id rest).elim (if carriesId e id then some (t, e) else none) some := by
  unfold lastCarrying
  simp only [List.foldl_cons]
  exact lastCarrying_foldl_acc id rest _

theorem lastCarrying_mem (id : String) (events : List (Nat × Event)) :
    ∀ te, lastCarrying id events = some te → te ∈ events := by
  induction events with
  | nil => intro te h; simp [lastCarrying] at h
  | cons p rest ih =>
    intro te h
    obtain ⟨t, e⟩ := p
    rw [lastCarrying_cons] at h
    cases hr : lastCarrying id rest with
    | some x =>
      rw [hr] at h
      simp only [Option.elim] at h
      right
      exact ih te (hr.trans h)
    | none =>
      rw [hr] at h
      simp only [Option.elim] at h
      by_cases hc : carriesId e id
      · simp [hc] at h
        rw [← h]
        exact List.mem_cons_self _ _
      · simp [hc] at h

theorem find_handleEvent_other (st : StreamCacheState) (t : Nat) (e : Event) (id : String)
    (h : ¬ carriesId e id) :
    alFind (handleEvent st t e).items id = alFind st.items id := by
  unfold handleEvent
  by_cases h0 : extractID e.Payload = ""
  · simp [h0]
  · have hne : extractID e.Payload ≠ id := by
      intro hEq
      exact h ⟨hEq, by rw [← hEq]; exact h0⟩
    have hid : id ≠ extractID e.Payload := fun hEq => hne hEq.symm
    simp only [h0, if_neg h0]
    cases e.type with
    | Created =>
      cases hf : alFind st.items (extractID e.Payload) <;>
        simp [hf, alFind_insert_ne _ _ hid]
    | Updated =>
      cases hf : alFind st.items (extractID e.Payload) <;>
        simp [hf, alFind_insert_ne _ _ hid]
    | Deleted =>
      cases hf : alFind st.items (extractID e.Payload) <;>
        simp [hf, alFind_erase_ne _ hid]

theorem find_handleEvent_deleted (st : StreamCacheState) (t : Nat) (e : Event)
    (hne : extractID e.Payload ≠ "") (hty : e.type = EventType.Deleted) :
    alFind (handleEvent st t e).items (extractID e.Payload) = none := by
  unfold handleEvent
  simp only [if_neg hne, hty]
  cases hf : alFind st.items (extractID e.Payload) with
  | some existing => simp [hf, alFind_erase_self]
  | none => simp [hf]

theorem find_handleEvent_upsert (st : StreamCacheState) (t : Nat) (e : Event)
    (hne : extractID e.Payload ≠ "") (hty : e.type ≠ EventType.Deleted) :
    ∃ h : Int, alFind (handleEvent st t e).items (extractID e.Payload) =
      some { data := e.Payload, timestamp := t, version := Int.ofNat t, hits := h } := by
  unfold handleEvent
  simp only [if_neg hne]
  cases hty2 : e.type with
  | Deleted => exact absurd hty2 hty
  | Created =>
    cases hf : alFind st.items (extractID e.Payload) with
    | some existing => exact ⟨existing.hits, by simp [hf, alFind_insert_self]⟩
    | none => exact ⟨0, by simp [hf, alFind_insert_self]⟩
  | Updated =>
    cases hf : alFind st.items (extractID e.Payload) with
    | some existing => exact ⟨existing.hits, by simp [hf, alFind_insert_self]⟩
    | none => exact ⟨0, by simp [hf, alFind_insert_self]⟩

/-- Central refinement lemma: after ingesting a finite trace, the index
entry of an id is determined by the last event of the trace that carries
that id: absent when there is none (the entry is whatever it was before) or
when that event is a deletion, and otherwise the payload of that event
stamped with its clock reading. -/
theorem find_ingestAll (events : List (Nat × Event)) :
    ∀ (st : StreamCacheState) (id : String),
      (lastCarrying id events = none →
        alFind (ingestAll st events).items id = alFind st.items id) ∧
      (∀ (t : Nat) (e : Event), lastCarrying id events = some (t, e) →
        (e.type = EventType.Deleted → alFind (ingestAll st events).items id = none) ∧
        (e.type ≠ EventType.Deleted → ∃ h : Int,
          alFind (ingestAll st events).items id =
            some { data := e.Payload, timestamp := t, version := Int.ofNat t, hits := h })) := by
  induction events with
  | nil =>
    intro st id
    refine ⟨fun _ => rfl, fun t e h => ?_⟩
    simp [lastCarrying] at h
  | cons p rest ih =>
    intro st id
    obtain ⟨t0, e0⟩ := p
    have hstep : ingestAll st ((t0, e0) :: rest) = ingestAll (handleEvent st t0 e0) rest := rfl
    constructor
    · intro hnone
      rw [lastCarrying_cons] at hnone
      cases hr : lastCarrying id rest with
      | some x => rw [hr] at hnone; simp at hnone
      | none =>
        rw [hr] at hnone
        simp only [Option.elim] at hnone
        have hnc : ¬ carriesId e0 id := by
          by_cases hc : carriesId e0 id
          · simp [hc] at hnone
          · exact hc
        rw [hstep, (ih (handleEvent st t0 e0) id).1 hr]
        exact find_handleEvent_other st t0 e0 id hnc
    · intro t e hsome
      rw [lastCarrying_cons] at hsome
      cases hr : lastCarrying id rest with
      | some x =>
        rw [hr] at hsome
        simp only [Option.elim] at hsome
        rw [hstep]
        exact (ih (handleEvent st t0 e0) id).2 t e (hr.trans hsome)
      | none =>
        rw [hr] at hsome
        simp only [Option.elim] at hsome
        by_cases hc : carriesId e0 id
        · simp only [hc, if_pos] at hsome
          obtain ⟨hte, hee⟩ : t0 = t ∧ e0 = e := by
            constructor <;> [exact congrArg Prod.fst (Option.some.inj hsome);
              exact congrArg Prod.snd (Option.some.inj hsome)]
          subst hte; subst hee
          obtain ⟨hid, hid2⟩ := hc
          constructor
          · intro hty
            rw [hstep, (ih (handleEvent st t0 e0) id).1 hr, ← hid]
            exact find_handleEvent_deleted st t0 e0 (hid ▸ hid2) hty
          · intro hty
            rw [hstep, (ih (handleEvent st t0 e0) id).1 hr, ← hid]
            exact find_handleEvent_upsert st t0 e0 (hid ▸ hid2) hty
        · simp [hc] at hsome

theorem streamCacheGet_closed (c : StreamCacheState) (now : Nat) (id : String) :
    (streamCacheGet c now id).1.closed = true := by
  unfold streamCacheGet
  cases alFind c.items id with
  | none => rfl
  | some item =>
    by_cases h : isExpired c item now = true <;> simp [h]

theorem streamCacheGet_miss (c : StreamCacheState) (now : Nat) (id : String)
    (h : alFind c.items id = none) :
    (streamCacheGet c now id).1 = ⟨c.config.BufferSize, [cacheMissResult], true⟩ := by
  unfold streamCacheGet
  rw [h]

theorem streamCacheGet_hit (c : StreamCacheState) (now : Nat) (id : String) (item : CacheItem)
    (h : alFind c.items id = some item) (hexp : isExpired c item now = false) :
    (streamCacheGet c now id).1 =
      ⟨c.config.BufferSize,
       [{ Data := item.data, Error := none, Cached := true,
          Timestamp := item.timestamp, Version := item.version }], true⟩ := by
  unfold streamCacheGet
  rw [h]
  simp [hexp]

theorem handleEvent_config (c : StreamCacheState) (t : Nat) (e : Event) :
    (handleEvent c t e).config = c.config := by
  unfold handleEvent
  by_cases h0 : extractID e.Payload = ""
  · simp [h0]
  · simp only [if_neg h0]
    cases hty : e.type <;> cases hf : alFind c.items (extractID e.Payload) <;> simp [hty, hf]

theorem ingestAll_config (events : List (Nat × Event)) :
    ∀ c : StreamCacheState, (ingestAll c events).config = c.config := by
  induction events with
  | nil => intro c; rfl
  | cons te rest ih =>
    intro c
    have : ingestAll c (te :: rest) = ingestAll (handleEvent c te.1 te.2) rest := rfl
    rw [this, ih, handleEvent_config]

/-- Claim C1: after any finite sequence of Created/Updated/Deleted events
has been ingested by a stream cache, and before any TTL expiry (every event
of the trace still within the TTL at query time), `Get(ctx, id)` returns a
channel that emits exactly one value and then closes; that value carries
the payload of the last Created or Updated event carrying that id with
`Cached = true` and a nil error, unless the last event carrying that id was
Deleted or no event carried that id, in which case it carries the zero
value with `Cached = false` and a CacheMiss error.  (An event whose payload
has an empty or missing `ID` field carries no id: ingestion drops it.) -/
theorem C1_get_reflects_last_event (cfg : CacheConfig) (events : List (Nat × Event))
    (id : String) (now : Nat)
    (hfresh : ∀ te ∈ events, now - te.1 ≤ (NewStreamCache cfg).config.TTL) :
    (streamCacheGet (ingestAll (NewStreamCache cfg) events) now id).1.closed = true ∧
    (lastCarrying id events = none →
      (streamCacheGet (ingestAll (NewStreamCache cfg) events) now id).1.emissions =
        [cacheMissResult]) ∧
    (∀ (t : Nat) (e : Event), lastCarrying id events = some (t, e) →
      (e.type = EventType.Deleted →
        (streamCacheGet (ingestAll (NewStreamCache cfg) events) now id).1.emissions =
          [cacheMissResult]) ∧
      (e.type ≠ EventType.Deleted →
        (streamCacheGet (ingestAll (NewStreamCache cfg) events) now id).1.emissions =
          [hitResult e.Payload t])) := by
  have hmain := find_ingestAll events (NewStreamCache cfg) id
  refine ⟨streamCacheGet_closed _ now id, ?_, ?_⟩
  · intro hnone
    have hfind : alFind (ingestAll (NewStreamCache cfg) events).items id = none := by
      rw [hmain.1 hnone]; rfl
    rw [streamCacheGet_miss _ now id hfind]
  · intro t e hsome
    constructor
    · intro hty
      have hfind := (hmain.2 t e hsome).1 hty
      rw [streamCacheGet_miss _ now id hfind]
    · intro hty
      obtain ⟨h, hfind⟩ := (hmain.2 t e hsome).2 hty
      have hmem : (t, e) ∈ events := lastCarrying_mem id events (t, e) hsome
      have hle : now - t ≤ (NewStreamCache cfg).config.TTL := hfresh (t, e) hmem
      have hexp : isExpired (ingestAll (NewStreamCache cfg) events)
          { data := e.Payload, timestamp := t, version := Int.ofNat t, hits := h } now = false := by
        unfold isExpired
        rw [ingestAll_config]
        exact decide_eq_false (Nat.not_lt.mpr hle)
      rw [streamCacheGet_hit _ now id _ hfind hexp]
      rfl

/-- Fixture event: a Created event for `entA`. -/
def evCreatedA : Event := ⟨EventType.Created, entA⟩

/-- Fixture trace for the C1 witness. -/
def eventsW : List (Nat × Event) := [(0, evCreatedA)]

/-- Witness for C1 at a concrete trace. -/
theorem C1_get_reflects_last_event_witness :
    (∀ te ∈ eventsW, 5 - te.1 ≤ (NewStreamCache cfgA).config.TTL) ∧
    lastCarrying "a" eventsW = some (0, evCreatedA) ∧
    (streamCacheGet (ingestAll (NewStreamCache cfgA) eventsW) 5 "a").1.emissions =
      [hitResult entA 0] := by
  refine ⟨by decide, by decide, ?_⟩
  exact ((C1_get_reflects_last_event cfgA eventsW "a" 5 (by decide)).2.2 0 evCreatedA
    (by decide)).2 (by decide)

/-- Claim C2 (refuted in the source, intended per its interface docs and
integration tests): the channel returned by `List` is not long-lived; for
every cache state and filter set the producer emits exactly one snapshot
and then closes the channel, regardless of later events and without
waiting for context cancellation. -/
theorem C2_list_channel_single_shot (c : StreamCacheState) (now : Nat) (filters : List Filter) :
    (streamCacheList c now filters).1.emissions.length = 1 ∧
    (streamCacheList c now filters).1.closed = true ∧
    (streamCacheList c now filters).2 = c := by
  exact ⟨rfl, rfl, rfl⟩

theorem matchesFilter_default (v : GoValue) (f : Filter)
    (h1 : f.Operator ≠ FilterEquals) (h2 : f.Operator ≠ FilterNotEquals) :
    matchesFilter v f = true := by
  simp [matchesFilter, h1, h2]

/-- Claim C3 counterexample: `contains` on an integer field is not
meaningful, so per the claim the filter must evaluate to false; the source
evaluates it to true (the operator switch falls through to
`default: return true`). -/
theorem C3_filter_op_counterexample :
    matchesFilter (GoValue.int 3)
      { Field := "count", Operator := FilterContains, Value := GoValue.str "x" } = true := by
  decide

/-- Claim C3 amended: `eq` and `ne` compare by deep equality; every other
operator — `in`, `nin`, `gt`, `lt`, `contains`, and any unknown operator
string — makes the filter evaluate to true unconditionally, regardless of
the field's type; filter evaluation never errors. -/
theorem C3_filter_semantics_amended :
    (∀ (v : GoValue) (fld : String) (w : GoValue),
      matchesFilter v { Field := fld, Operator := FilterEquals, Value := w } = decide (v = w) ∧
      matchesFilter v { Field := fld, Operator := FilterNotEquals, Value := w } =
        !(decide (v = w)) ∧
      matchesFilter v { Field := fld, Operator := FilterIn, Value := w } = true ∧
      matchesFilter v { Field := fld, Operator := FilterNotIn, Value := w } = true ∧
      matchesFilter v { Field := fld, Operator := FilterGreater, Value := w } = true ∧
      matchesFilter v { Field := fld, Operator := FilterLess, Value := w } = true ∧
      matchesFilter v { Field := fld, Operator := FilterContains, Value := w } = true) ∧
    (∀ (v : GoValue) (f : Filter), f.Operator ≠ FilterEquals → f.Operator ≠ FilterNotEquals →
      matchesFilter v f = true) := by
  constructor
  · intro v fld w
    have hne : FilterNotEquals ≠ FilterEquals := by decide
    have hIn1 : FilterIn ≠ FilterEquals := by decide
    have hIn2 : FilterIn ≠ FilterNotEquals := by decide
    have hNin1 : FilterNotIn ≠ FilterEquals := by decide
    have hNin2 : FilterNotIn ≠ FilterNotEquals := by decide
    have hGt1 : FilterGreater ≠ FilterEquals := by decide
    have hGt2 : FilterGreater ≠ FilterNotEquals := by decide
    have hLt1 : FilterLess ≠ FilterEquals := by decide
    have hLt2 : FilterLess ≠ FilterNotEquals := by decide
    have hCo1 : FilterContains ≠ FilterEquals := by decide
    have hCo2 : FilterContains ≠ FilterNotEquals := by decide
    refine ⟨by simp [matchesFilter], ?_, ?_, ?_, ?_, ?_, ?_⟩
    · unfold matchesFilter
      simp [hne]
    · exact matchesFilter_default v _ hIn1 hIn2
    · exact matchesFilter_default v _ hNin1 hNin2
    · exact matchesFilter_default v _ hGt1 hGt2
    · exact matchesFilter_default v _ hLt1 hLt2
    · exact matchesFilter_default v _ hCo1 hCo2
  · exact fun v f h1 h2 => matchesFilter_default v f h1 h2

/-- Witness for the amended C3 at a concrete unimplemented operator. -/
theorem C3_filter_semantics_amended_witness :
    FilterGreater ≠ FilterEquals ∧ FilterGreater ≠ FilterNotEquals ∧
    matchesFilter (GoValue.int 3)
      { Field := "n", Operator := FilterGreater, Value := GoValue.int 5 } = true :=
  ⟨by decide, by decide,
   C3_filter_semantics_amended.2 (GoValue.int 3)
     { Field := "n", Operator := FilterGreater, Value := GoValue.int 5 } (by decide) (by decide)⟩

/-- A cache state holding the two unexpired records `entA` and `entB`. -/
def st2 : StreamCacheState :=
  ingestAll (NewStreamCache cfgA)
    [(0, ⟨EventType.Created, entA⟩), (1, ⟨EventType.Created, entB⟩)]

/-- A query with no filters and no sort keys, but `Limit = 1`. -/
def q0 : Query := { Filters := [], sort := [], Limit := 1, Offset := 0 }

/-- Claim C4 counterexample: on a cache holding two records, the snapshot
emitted for a query with `Limit = 1` is not the spec-mandated result of
applying sort, offset and limit after filtering (that would keep one
record; the code keeps both, ignoring the limit). -/
theorem C4_query_counterexample :
    (streamCacheQuery st2 5 q0).1.emissions ≠
      [{ Data := applySortOffsetLimit q0 (filteredResults st2 5 q0.Filters), Error := none,
         Cached := true, Timestamp := 5, Version := 0 }] := by
  decide

/-- Claim C4 amended: for every query, `Query(ctx, query)` behaves exactly
like `List(ctx, query.Filters...)`: it emits one snapshot of the unexpired
records matching the query's filters; the query's sort, offset and limit
are ignored. -/
theorem C4_query_ignores_sort_offset_limit (c : StreamCacheState) (now : Nat) (q : Query) :
    (streamCacheQuery c now q).1.emissions =
      [{ Data := filteredResults c now q.Filters, Error := none, Cached := true,
         Timestamp := now, Version := 0 }] ∧
    (streamCacheQuery c now q).1 = (streamCacheList c now q.Filters).1 ∧
    (streamCacheQuery c now q).2 = c :=
  ⟨rfl, rfl, rfl⟩

/-- The state reached from a `MaxItems = 1` configuration after two Created
events with distinct ids. -/
def st5 : StreamCacheState :=
  ingestAll (NewStreamCache cfgSmall)
    [(0, ⟨EventType.Created, entA⟩), (1, ⟨EventType.Created, entB⟩)]

/-- Claim C5 (refuted in the source, asserted by the config's own
documentation): `handleEvent` performs no capacity check, so with
`MaxItems = 1` two Created events leave two records in the index and
`ItemCount = 2`; the record with the oldest `insertedAt` is not evicted. -/
theorem C5_no_capacity_eviction :
    st5.config.MaxItems = 1 ∧ st5.items.length = 2 ∧ st5.stats.ItemCount = 2 ∧
    alFind st5.items "a" ≠ none := by
  decide

/-- The state reached after two Created events that carry distinct ids but
the same clock reading. -/
def st6 : StreamCacheState :=
  ingestAll (NewStreamCache cfgA)
    [(7, ⟨EventType.Created, entA⟩), (7, ⟨EventType.Created, entB⟩)]

/-- Claim C6 counterexample: versions are wall-clock nanosecond readings
(`time.Now().UnixNano()`), not a counter; two inserts observed at the same
clock reading — possible because consecutive `time.Now()` calls can return
equal values — receive equal versions, so the later insert's version is
not strictly greater than the earlier one's. -/
theorem C6_version_counterexample :
    (alFind st6.items "a").map CacheItem.version = some 7 ∧
    (alFind st6.items "b").map CacheItem.version = some 7 ∧
    ¬ ((7 : Int) < 7) := by
  decide

/-- Claim C6 amended: the version assigned by an insert or refresh equals
the wall-clock nanosecond reading at that insert, so versions strictly
increase across inserts exactly when the clock readings do; inserts at
equal clock readings receive equal versions. -/
theorem C6_version_equals_clock (st : StreamCacheState) (t : Nat) (e : Event)
    (hid : extractID e.Payload ≠ "") (hty : e.type ≠ EventType.Deleted) :
    ∃ item : CacheItem,
      alFind (handleEvent st t e).items (extractID e.Payload) = some item ∧
      item.version = Int.ofNat t ∧ item.data = e.Payload ∧ item.timestamp = t := by
  obtain ⟨h, hf⟩ := find_handleEvent_upsert st t e hid hty
  exact ⟨_, hf, rfl, rfl, rfl⟩

/-- Witness for the amended C6 at a concrete insert. -/
theorem C6_version_equals_clock_witness :
    extractID evCreatedA.Payload ≠ "" ∧ evCreatedA.type ≠ EventType.Deleted ∧
    ∃ item : CacheItem,
      alFind (handleEvent (NewStreamCache cfgA) 3 evCreatedA).items
        (extractID evCreatedA.Payload) = some item ∧
      item.version = Int.ofNat 3 ∧ item.data = evCreatedA.Payload ∧ item.timestamp = 3 :=
  ⟨by decide, by decide,
   C6_version_equals_clock (NewStreamCache cfgA) 3 evCreatedA (by decide) (by decide)⟩

/-- Claim C7 counterexample: calling `Close` a second time does not return
nil — it panics, because `Close` unconditionally runs `close(c.done)` and
`close(c.eventDone)` on the already-closed channels. -/
theorem C7_close_counterexample :
    (match streamCacheClose initialCloseState with
     | Except.ok r => streamCacheClose r.1
     | Except.error p => Except.error p) =
      Except.error GoPanic.closeOfClosedChannel := by
  rfl

/-- Claim C7 amended: the first `Close` on a fresh cache closes both
lifecycle channels, stops the cleanup ticker and returns nil; `Close` is
not idempotent — a second call panics closing the already-closed `done`
channel. -/
theorem C7_close_amended :
    streamCacheClose initialCloseState = Except.ok (⟨true, true, true⟩, none) ∧
    streamCacheClose ⟨true, true, true⟩ = Except.error GoPanic.closeOfClosedChannel :=
  ⟨rfl, rfl⟩

/-- Claim C8: `Manager.Start`/`Manager.Stop` are idempotent — starting a
Running manager returns nil without constructing new caches (the state is
unchanged), stopping a manager that is not started returns nil without
effect, and a Start after a Stop constructs fresh cache instances (the
sub-managers after the second Start are different allocations from those
after the first). -/
theorem C8_manager_lifecycle :
    (∀ m : ManagerState, m.started = true → ManagerStart m = (none, m)) ∧
    (∀ m : ManagerState, m.started = false → ManagerStop m = (none, m)) ∧
    (∀ cfg : CacheConfig,
      (ManagerStart ((ManagerStop ((ManagerStart (NewManager cfg)).2)).2)).2.sessionCacheGen ≠
        (ManagerStart (NewManager cfg)).2.sessionCacheGen ∧
      (ManagerStart ((ManagerStop ((ManagerStart (NewManager cfg)).2)).2)).2.messageCacheGen ≠
        (ManagerStart (NewManager cfg)).2.messageCacheGen ∧
      ((ManagerStart ((ManagerStop ((ManagerStart (NewManager cfg)).2)).2)).2.sessionCacheGen).isSome
        = true) := by
  refine ⟨?_, ?_, ?_⟩
  · intro m h
    simp [ManagerStart, h]
  · intro m h
    simp [ManagerStop, h]
  · intro cfg
    refine ⟨?_, ?_, ?_⟩ <;> simp [ManagerStart, ManagerStop, NewManager]

/-- Witness for C8 at concrete manager states. -/
theorem C8_manager_lifecycle_witness :
    ManagerStart ((ManagerStart (NewManager cfgA)).2) = (none, (ManagerStart (NewManager cfgA)).2) ∧
    ManagerStop (NewManager cfgA) = (none, NewManager cfgA) :=
  ⟨C8_manager_lifecycle.1 ((ManagerStart (NewManager cfgA)).2) (by decide),
   C8_manager_lifecycle.2.1 (NewManager cfgA) (by decide)⟩

/-- Claim C9: `Invalidate(ids...)` removes each listed id that is present,
but decrements `ItemCount` once per listed id whether or not that id was
present; invalidating an absent id leaves the stored records unchanged
while still decreasing `ItemCount`, which can therefore drop below the
number of stored records and even below zero. -/
theorem C9_invalidate_semantics :
    (∀ (st : StreamCacheState) (ids : List String),
      (streamCacheInvalidate st ids).stats.ItemCount =
        st.stats.ItemCount - (ids.length : Int)) ∧
    (∀ (st : StreamCacheState) (ids : List String) (id : String), id ∈ ids →
      alFind (streamCacheInvalidate st ids).items id = none) ∧
    (∀ (st : StreamCacheState) (id : String), alFind st.items id = none →
      (streamCacheInvalidate st [id]).items = st.items) ∧
    (streamCacheInvalidate (NewStreamCache cfgA) ["missing"]).stats.ItemCount = -1 := by
  have habsent : ∀ (ids : List String) (st : StreamCacheState) (id : String),
      alFind st.items id = none → alFind (streamCacheInvalidate st ids).items id = none := by
    intro ids
    induction ids with
    | nil => intro st id h; exact h
    | cons id0 rest ih =>
      intro st id h
      have hstep : streamCacheInvalidate st (id0 :: rest) =
          streamCacheInvalidate
            { st with items := alErase st.items id0
                      stats := { st.stats with ItemCount := st.stats.ItemCount - 1 } } rest := rfl
      rw [hstep]
      exact ih _ id (alFind_none_of_erase st.items id id0 h)
  refine ⟨?_, ?_, ?_, ?_⟩
  · intro st ids
    induction ids generalizing st with
    | nil => simp [streamCacheInvalidate]
    | cons id0 rest ih =>
      have hstep : streamCacheInvalidate st (id0 :: rest) =
          streamCacheInvalidate
            { st with items := alErase st.items id0
                      stats := { st.stats with ItemCount := st.stats.ItemCount - 1 } } rest := rfl
      rw [hstep, ih]
      simp only [List.length_cons]
      omega
  · intro st ids
    induction ids generalizing st with
    | nil => intro id h; simp at h
    | cons id0 rest ih =>
      intro id h
      have hstep : streamCacheInvalidate st (id0 :: rest) =
          streamCacheInvalidate
            { st with items := alErase st.items id0
                      stats := { st.stats with ItemCount := st.stats.ItemCount - 1 } } rest := rfl
      rw [hstep]
      rcases List.mem_cons.mp h with h0 | hrest
      · subst h0
        exact habsent rest _ id (alFind_erase_self st.items id)
      · exact ih _ id hrest
  · intro st id h
    show alErase st.items id = st.items
    exact alErase_of_find_none st.items id h
  · decide

/-- Witness for C9 at concrete inputs: a present id is removed, and an
absent id leaves the records unchanged. -/
theorem C9_invalidate_semantics_witness :
    ("a" ∈ ["a"]) ∧ alFind (streamCacheInvalidate st2 ["a"]).items "a" = none ∧
    alFind (NewStreamCache cfgA).items "zz" = none ∧
    (streamCacheInvalidate (NewStreamCache cfgA) ["zz"]).items = (NewStreamCache cfgA).items :=
  ⟨by decide, C9_invalidate_semantics.2.1 st2 ["a"] "a" (by decide), by decide,
   C9_invalidate_semantics.2.2.1 (NewStreamCache cfgA) "zz" (by decide)⟩

/-- Claim C10: configuration defaulting is keyed solely on the TTL field —
a zero-TTL config is discarded wholesale in favour of the defaults
(TTL five minutes, MaxItems 1000, CleanupInterval one minute, BufferSize
64) by both `NewStreamCache` and `NewManager`; a non-zero-TTL config is
used exactly as supplied even where zero: result channels are created with
buffer `config.BufferSize` (zero means unbuffered) and the cleanup ticker
receives `config.CleanupInterval` unchanged. -/
theorem C10_config_defaulting :
    (∀ cfg : CacheConfig, cfg.TTL = 0 →
      (NewStreamCache cfg).config = DefaultCacheConfig ∧
      (NewManager cfg).config = DefaultCacheConfig) ∧
    (∀ cfg : CacheConfig, cfg.TTL ≠ 0 →
      (NewStreamCache cfg).config = cfg ∧ (NewManager cfg).config = cfg) ∧
    DefaultCacheConfig =
      { TTL := 5 * minuteNs, MaxItems := 1000, CleanupInterval := minuteNs, BufferSize := 64 } ∧
    (∀ (c : StreamCacheState) (now : Nat) (id : String),
      (streamCacheGet c now id).1.bufferSize = c.config.BufferSize) ∧
    (∀ (c : StreamCacheState) (now : Nat) (fs : List Filter),
      (streamCacheList c now fs).1.bufferSize = c.config.BufferSize) ∧
    (∀ cfg : CacheConfig,
      (NewStreamCache cfg).cleanupTickerInterval = (NewStreamCache cfg).config.CleanupInterval) := by
  refine ⟨?_, ?_, by simp [DefaultCacheConfig, minuteNs], ?_, ?_, ?_⟩
  · intro cfg h
    constructor <;> simp [NewStreamCache, NewManager, h]
  · intro cfg h
    constructor <;> simp [NewStreamCache, NewManager, h]
  · intro c now id
    unfold streamCacheGet
    cases alFind c.items id with
    | none => rfl
    | some item =>
      by_cases h : isExpired c item now = true <;> simp [h]
  · intro c now fs
    rfl
  · intro cfg
    rfl

/-- Witness for C10 at a zero-TTL and a non-zero-TTL config. -/
theorem C10_config_defaulting_witness :
    cfgZero.TTL = 0 ∧ (NewStreamCache cfgZero).config = DefaultCacheConfig ∧
    cfgA.TTL ≠ 0 ∧ (NewStreamCache cfgA).config = cfgA ∧ (NewManager cfgA).config = cfgA :=
  ⟨rfl, (C10_config_defaulting.1 cfgZero rfl).1, by decide,
   (C10_config_defaulting.2.1 cfgA (by decide)).1, (C10_config_defaulting.2.1 cfgA (by decide)).2⟩

end Cache
